import Mathlib

/-!
Verification development for the AI_Excel repository.

The repository is Python glue code around two Excel workbooks:
`ship_management_model.py` (class `ShipManagementModel`),
`sales_forecast_model.py` (class `SalesForecastModel`) and `agent.py`
(class `Agent`).  This file gives a shallow embedding of those
operations and proves or refutes the specification claims about them.

Modelling conventions:
- a workbook is a total map from cell addresses to cell values;
- a cell value is either empty (`vnone`, Python `None`), a string, or a
  number (numeric cell contents are modelled as integers, which covers
  every value the claims mention);
- Python exceptions are modelled with `Except`: `attrError` for
  `AttributeError` (calling `.strip()` on a non-string), `typeError` /
  `valueError` for the failures of formatting a non-number with
  `f"{v:,.2f}"`, `valueError` also for an explicit `raise ValueError`,
  and `rangeError` for addressing a cell past the last worksheet row;
- each operation opens the workbook, mutates it in memory and saves it
  (or not); an operation returns the resulting on-disk file contents
  plus a `saved` flag where the distinction matters.
-/

namespace AIExcel

/-- Value held by a single spreadsheet cell: empty, a string, or a number. -/
inductive CellVal where
  | vnone
  | vstr (s : String)
  | vnum (n : Int)
deriving DecidableEq, Repr

/-- Address of a cell: sheet name, column letter, 1-based row number. -/
structure Addr where
  sheet : String
  col : String
  row : Nat
deriving DecidableEq, Repr

/-- A workbook is a total assignment of values to cell addresses. -/
def Workbook : Type := Addr → CellVal

/-- Read one cell (xlwings `sheet.range(addr).value`). -/
def getCell (wb : Workbook) (a : Addr) : CellVal := wb a

/-- Write one cell (xlwings `sheet.range(addr).value = v`). -/
def setCell (wb : Workbook) (a : Addr) (v : CellVal) : Workbook :=
  fun a2 => if a2 = a then v else wb a2

/-- Python exceptions that the modelled code can raise. -/
inductive PyErr where
  | attrError
  | typeError
  | valueError
  | rangeError
deriving DecidableEq, Repr

/-- Boolean test for a successful `Except` result. -/
def exceptOk {ε α : Type} : Except ε α → Bool
  | .ok _ => true
  | .error _ => false

/-! ### Python string methods

The Python code uses `str.strip()`, `str.upper()` and `str.lower()`;
they are modelled here as executable functions on the character list
(ASCII case mapping, which covers every string in the repository). -/

/-- Whitespace characters removed by Python `str.strip()`. -/
def isSpaceChar (c : Char) : Bool :=
  c == ' ' || c == '\t' || c == '\n' || c == '\r' || c == '\x0b' || c == '\x0c'

/-- Drop the longest leading run of characters satisfying `p`. -/
def dropLead (p : Char → Bool) : List Char → List Char
  | [] => []
  | c :: cs => if p c then dropLead p cs else c :: cs

/-- Python `str.strip()`: remove leading and trailing whitespace. -/
def pyStrip (s : String) : String :=
  String.mk ((dropLead isSpaceChar ((dropLead isSpaceChar s.toList).reverse)).reverse)

/-- Uppercase one ASCII character. -/
def pyUpperChar (c : Char) : Char :=
  if 'a' ≤ c && c ≤ 'z' then Char.ofNat (c.toNat - 32) else c

/-- Lowercase one ASCII character. -/
def pyLowerChar (c : Char) : Char :=
  if 'A' ≤ c && c ≤ 'Z' then Char.ofNat (c.toNat + 32) else c

/-- Python `str.upper()`. -/
def pyUpper (s : String) : String := String.mk (s.toList.map pyUpperChar)

/-- Python `str.lower()`. -/
def pyLower (s : String) : String := String.mk (s.toList.map pyLowerChar)

/-! ## Ship management model (`ship_management_model.py`) -/

/-- Sheet holding the ship-type slots (`'i_Setup'`). -/
def setupSheet : String := "i_Setup"

/-- Sheet holding the revenue figures (`'c_Calculations'`). -/
def calcSheet : String := "c_Calculations"

/-- First slot row in the setup sheet (`ship_type_start_row = 32`). -/
def shipTypeStartRow : Nat := 32

/-- Address of the name cell of slot index `i` (0-based): column M,
row `32 + i` of the setup sheet. -/
def nameAddr (i : Nat) : Addr := ⟨setupSheet, "M", shipTypeStartRow + i⟩

/-- Python test `current_value is None or current_value == ''` used by
`add_ship_type` to recognise an empty slot.  A number never equals the
empty string in Python, so numeric cells count as filled. -/
def slotCellEmpty : CellVal → Bool
  | .vnone => true
  | .vstr s => s = ""
  | .vnum _ => false

/-- A name cell that the slot-scanning code can process without raising:
`None` or a string.  A numeric cell is non-null and not a string. -/
def nameCellOk : CellVal → Bool
  | .vnum _ => false
  | _ => true

/-- Loop `for i in range(10)` of `add_ship_type` looking for the first
empty slot; `fuel` counts the remaining iterations, `i` is the current
0-based slot index.  Returns the 1-based slot number. -/
def findEmptyAux (wb : Workbook) : Nat → Nat → Option Nat
  | 0, _ => none
  | fuel + 1, i =>
    if slotCellEmpty (getCell wb (nameAddr i)) then some (i + 1)
    else findEmptyAux wb fuel (i + 1)

/-- Result dictionary of `add_ship_type`. -/
inductive AddShipResult where
  | allFull (message : String)
  | added (slot : Nat) (row : Nat) (message : String)
deriving DecidableEq, Repr

/-- Outcome of a mutating operation: resulting on-disk file, whether
`wb.save()` ran, and the returned result value. -/
structure AddOutcome where
  file : Workbook
  saved : Bool
  result : AddShipResult

/-- Success message of `add_ship_type`. -/
def addedMessage (name : String) (slot : Nat) : String :=
  "Successfully added ship type \x27" ++ name ++ "\x27 to slot ST" ++ toString slot

/-- Failure message of `add_ship_type` when every slot is taken. -/
def allFullMessage : String := "All ship type slots (ST1-ST10) are already filled"

/-- Shared tail of `add_ship_type`: write the name into column M of the
target row, write `'Yes'` into column P (`chr(ord('M') + 3)`), save. -/
def writeShipType (wb : Workbook) (name : String) (slotNum targetRow : Nat) :
    Except PyErr AddOutcome :=
  let wb1 := setCell wb ⟨setupSheet, "M", targetRow⟩ (.vstr name)
  let wb2 := setCell wb1 ⟨setupSheet, "P", targetRow⟩ (.vstr "Yes")
  .ok ⟨wb2, true, .added slotNum targetRow (addedMessage name slotNum)⟩

/-- `ShipManagementModel.add_ship_type`.  With an explicit slot the code
validates `1 <= slot <= 10` (raising `ValueError` otherwise) and targets
that row directly; with no slot it scans slots 1..10 for the first empty
one and returns a structured failure when none is empty. -/
def add_ship_type (wb : Workbook) (ship_type_name : String)
    (ship_type_slot : Option Int) : Except PyErr AddOutcome :=
  match ship_type_slot with
  | some slot =>
    if slot < 1 || slot > 10 then .error .valueError
    else writeShipType wb ship_type_name slot.toNat (shipTypeStartRow + slot.toNat - 1)
  | none =>
    match findEmptyAux wb 10 0 with
    | none => .ok ⟨wb, false, .allFull allFullMessage⟩
    | some slotNum =>
      writeShipType wb ship_type_name slotNum (shipTypeStartRow + slotNum - 1)

/-- Entry of the list returned by `get_all_ship_types`. -/
structure ShipEntry where
  slot : Nat
  name : String
  row : Nat
deriving DecidableEq, Repr

/-- Loop of `get_all_ship_types`: a slot is listed iff
`ship_name and ship_name.strip()` is truthy; a non-zero numeric cell is
truthy and then `.strip()` raises `AttributeError`. -/
def listAux (wb : Workbook) : Nat → Nat → Except PyErr (List ShipEntry)
  | 0, _ => .ok []
  | fuel + 1, i =>
    match getCell wb (nameAddr i) with
    | .vnone => listAux wb fuel (i + 1)
    | .vstr s =>
      if s = "" then listAux wb fuel (i + 1)
      else if pyStrip s = "" then listAux wb fuel (i + 1)
      else
        match listAux wb fuel (i + 1) with
        | .error e => .error e
        | .ok rest => .ok (⟨i + 1, s, shipTypeStartRow + i⟩ :: rest)
    | .vnum n =>
      if n = 0 then listAux wb fuel (i + 1) else .error .attrError

/-- `ShipManagementModel.get_all_ship_types`. -/
def get_all_ship_types (wb : Workbook) : Except PyErr (List ShipEntry) :=
  listAux wb 10 0

/-- Python `s.strip().upper()`, the normalisation used by the name match
of `read_total_revenue`. -/
def trimUp (s : String) : String := pyUpper (pyStrip s)

/-- Loop of `read_total_revenue` looking for the slot whose name matches:
`if current_value and current_value.strip().upper() == name.strip().upper()`.
`key` is the already-normalised requested name; a non-zero numeric cell
is truthy and `.strip()` on it raises `AttributeError`. -/
def slotScanAux (wb : Workbook) (key : String) : Nat → Nat → Except PyErr (Option Nat)
  | 0, _ => .ok none
  | fuel + 1, i =>
    match getCell wb (nameAddr i) with
    | .vnone => slotScanAux wb key fuel (i + 1)
    | .vstr s =>
      if s = "" then slotScanAux wb key fuel (i + 1)
      else if trimUp s = key then .ok (some (i + 1))
      else slotScanAux wb key fuel (i + 1)
    | .vnum n =>
      if n = 0 then slotScanAux wb key fuel (i + 1) else .error .attrError

/-- Slot lookup of `read_total_revenue` over slots 1..10. -/
def findShipSlot (wb : Workbook) (name : String) : Except PyErr (Option Nat) :=
  slotScanAux wb (trimUp name) 10 0

/-- Insert a comma after every third digit; the input is the reversed
digit list and `k` counts digits already grouped. -/
def groupRev : List Char → Nat → List Char
  | [], _ => []
  | c :: cs, k =>
    if k = 3 then ',' :: c :: groupRev cs 1
    else c :: groupRev cs (k + 1)

/-- Python `f"{v:,.2f}"` applied to an integer-valued cell: thousands
separators and two decimal places. -/
def pyMoneyFormat (n : Int) : String :=
  let sign := if n < 0 then "-" else ""
  let ds := (toString n.natAbs).toList
  sign ++ String.mk (groupRev ds.reverse 0).reverse ++ ".00"

/-- Success message of `read_total_revenue`. -/
def revenueMessage (name : String) (rv : Int) (tax : Bool) : String :=
  "Total revenue for \x27" ++ name ++ "\x27: $" ++ pyMoneyFormat rv ++ " (" ++
    (if tax then "incl. tax" else "excl. tax") ++ ")"

/-- Not-found message of `read_total_revenue`. -/
def notFoundMessage (name : String) : String :=
  "Ship type \x27" ++ name ++ "\x27 not found in i_Setup tab"

/-- Result dictionary of `read_total_revenue`. -/
inductive ReadRevenueResult where
  | notFound (message : String)
  | found (ship_type : String) (slot : Nat) (revenue : Int) (include_tax : Bool)
      (label : CellVal) (message : String)
deriving DecidableEq, Repr

/-- `ShipManagementModel.read_total_revenue`.  After the slot match the
code reads the revenue cell at row `(61 if include_tax else 44) + (slot-1)`
of column M and the label at column H of the same row, then interpolates
the revenue with `f"{revenue_value:,.2f}"`, which raises `TypeError` on
`None` and `ValueError` on a string.  The function never writes a cell;
the returned workbook is the unchanged input. -/
def read_total_revenue (wb : Workbook) (ship_type_name : String)
    (include_tax : Bool) : Except PyErr (Workbook × ReadRevenueResult) :=
  match findShipSlot wb ship_type_name with
  | .error e => .error e
  | .ok none => .ok (wb, .notFound (notFoundMessage ship_type_name))
  | .ok (some slotNum) =>
    let revenueRow := (if include_tax then 61 else 44) + (slotNum - 1)
    let rv := getCell wb ⟨calcSheet, "M", revenueRow⟩
    let label := getCell wb ⟨calcSheet, "H", revenueRow⟩
    match rv with
    | .vnum v =>
      .ok (wb, .found ship_type_name slotNum v include_tax label
        (revenueMessage ship_type_name v include_tax))
    | .vnone => .error .typeError
    | .vstr _ => .error .valueError

/-! ## Sales forecast model (`sales_forecast_model.py`) -/

/-- Input sheet name (`'Forecast input'`). -/
def inputSheet : String := "Forecast input"

/-- Output sheet name (`'Sales forecast'`). -/
def forecastSheet : String := "Sales forecast"

/-- Last row of an Excel worksheet. -/
def MAX_ROW : Nat := 1048576

/-- A cell counts as filled for the Ctrl+Down boundary scan iff it is
not empty. -/
def cellFilled (wb : Workbook) (sheet col : String) (row : Nat) : Bool :=
  getCell wb ⟨sheet, col, row⟩ != .vnone

/-- Downward search for the first filled cell at or below row `r`; runs
out of fuel at the sheet bottom and then answers `MAX_ROW`. -/
def scanDown (wb : Workbook) (sheet col : String) : Nat → Nat → Nat
  | 0, _ => MAX_ROW
  | fuel + 1, r =>
    if cellFilled wb sheet col r then r
    else scanDown wb sheet col fuel (r + 1)

/-- Last row of the contiguous filled run that starts at row `r`
(assuming `r` itself is filled). -/
def runEnd (wb : Workbook) (sheet col : String) : Nat → Nat → Nat
  | 0, r => r
  | fuel + 1, r =>
    if cellFilled wb sheet col (r + 1) then runEnd wb sheet col fuel (r + 1)
    else r

/-- xlwings `sheet.range(f'{col}{row}').end('down').row`, i.e. Excel
Ctrl+Down: from a filled cell whose successor is filled, move to the end
of the contiguous filled run; otherwise move to the next filled cell
below, or to the bottom row of the sheet when there is none. -/
def end_down (wb : Workbook) (sheet col : String) (row : Nat) : Nat :=
  if cellFilled wb sheet col row && cellFilled wb sheet col (row + 1) then
    runEnd wb sheet col (MAX_ROW - row) row
  else
    scanDown wb sheet col (MAX_ROW - row) (row + 1)

/-- Header columns of the input sheet (`'B6:J6'`). -/
def inputCols : List String := ["B", "C", "D", "E", "F", "G", "H", "I", "J"]

/-- Header row read by `add_forecast_input_row`
(`input_sheet.range('B6:J6').value`). -/
def readHeaders (wb : Workbook) : List CellVal :=
  inputCols.map (fun c => getCell wb ⟨inputSheet, c, 6⟩)

/-- Python `data_dict.get(header, '')`: the dictionary keys are the
column-name strings, the header argument is a raw cell value; a missing
key — including any non-string header cell — yields the empty string. -/
def fieldLookup (fields : List (String × CellVal)) : CellVal → CellVal
  | .vstr h =>
    match fields.lookup h with
    | some v => v
    | none => .vstr ""
  | _ => .vstr ""

/-- Outcome of `add_forecast_input_row`: resulting file, `saved` flag and
the returned row number. -/
structure AppendOutcome where
  file : Workbook
  saved : Bool
  row : Nat

/-- Write `vals` into the given columns of row `row` of the input sheet
(`input_sheet.range(f'B{new_row}').value = row_data`). -/
def writeRowVals (wb : Workbook) (row : Nat) : List String → List CellVal → Workbook
  | c :: cs, v :: vs => writeRowVals (setCell wb ⟨inputSheet, c, row⟩ v) row cs vs
  | _, _ => wb

/-- `SalesForecastModel.add_forecast_input_row`: read the headers, find
`range('B7').end('down').row`, write the mapped record one row below and
save.  Addressing a row past the worksheet bottom raises. -/
def add_forecast_input_row (wb : Workbook) (fields : List (String × CellVal)) :
    Except PyErr AppendOutcome :=
  let headers := readHeaders wb
  let last_row := end_down wb inputSheet "B" 7
  let new_row := last_row + 1
  let row_data := headers.map (fieldLookup fields)
  if new_row > MAX_ROW then .error .rangeError
  else .ok ⟨writeRowVals wb new_row inputCols row_data, true, new_row⟩

/-- Data columns of the output sheet (`B6:D...`). -/
def outputCols : List String := ["B", "C", "D"]

/-- One row of the output range: columns B..D of the forecast sheet. -/
def rowVals (wb : Workbook) (r : Nat) : List CellVal :=
  outputCols.map (fun c => getCell wb ⟨forecastSheet, c, r⟩)

/-- Rows `start`, `start+1`, ... of the output range; the second argument
counts the rows to read. -/
def readRows (wb : Workbook) : Nat → Nat → List (List CellVal)
  | _, 0 => []
  | start, n + 1 => rowVals wb start :: readRows wb (start + 1) n

/-- Return value of `read_sales_forecast`: a pandas DataFrame with the
first row as column names, an empty DataFrame, or the raw list. -/
inductive ForecastReadResult where
  | table (cols : List CellVal) (records : List (List CellVal))
  | emptyTable
  | raw (data : List (List CellVal))
deriving DecidableEq, Repr

/-- `SalesForecastModel.read_sales_forecast`: read
`B6:D{range('B7').end('down').row}`; with `as_dataframe` the first row
becomes the column names when the list has more than one row, otherwise
the result is an empty DataFrame. -/
def read_sales_forecast (wb : Workbook) (as_dataframe : Bool) : ForecastReadResult :=
  let last_row := end_down wb forecastSheet "B" 7
  let data := readRows wb 6 (last_row - 5)
  if as_dataframe then
    match data with
    | hdr :: r1 :: rest => .table hdr (r1 :: rest)
    | _ => .emptyTable
  else .raw data

/-! ## Dispatcher (`agent.py`) -/

/-- Python substring test `sub in hay`, via a match at the head. -/
def leadMatch : List Char → List Char → Bool
  | [], _ => true
  | _ :: _, [] => false
  | a :: as, b :: bs => (a == b) && leadMatch as bs

/-- Scan `hay` for an occurrence of `needle`. -/
def subSeq (needle : List Char) : List Char → Bool
  | [] => leadMatch needle []
  | b :: bs => leadMatch needle (b :: bs) || subSeq needle bs

/-- Python `sub in hay` on strings. -/
def strHas (hay sub : String) : Bool := subSeq sub.toList hay.toList

/-- The call that `Agent.execute_task` routes a prompt to. -/
inductive RoutedCall where
  | shipToolMissing
  | listShips
  | readRevenue (ship_name : String)
  | addShip (ship_name : String)
  | unknownShipCommand
  | salesToolMissing
  | readForecast
  | unknownForecastCommand
  | unknownTool
deriving DecidableEq, Repr

/-- `Agent.execute_task` keyword routing.  `hasShip` / `hasSales` say
whether the corresponding tool is registered.  Python operator
precedence makes the list test
`'list' in prompt or ('get all' in prompt and 'ship type' in prompt)`.
The revenue and add branches pass hardcoded ship names. -/
def execute_task (hasShip hasSales : Bool) (prompt : String) : RoutedCall :=
  let p := pyLower prompt
  if strHas p "ship" || strHas p "revenue" then
    if !hasShip then .shipToolMissing
    else if strHas p "list" || (strHas p "get all" && strHas p "ship type") then
      .listShips
    else if strHas p "revenue" then .readRevenue "Container Ships"
    else if strHas p "add" && strHas p "ship type" then .addShip "Bulk Carrier"
    else .unknownShipCommand
  else if strHas p "sales" || strHas p "forecast" then
    if !hasSales then .salesToolMissing
    else if strHas p "read" || strHas p "get" || strHas p "show" then .readForecast
    else .unknownForecastCommand
  else .unknownTool

/-! ## Derived predicates used to state the claims -/

/-- The slot-matching condition of `read_total_revenue` at 0-based slot
index `i`, for an already-normalised requested name `key`: the cell is a
truthy string whose normalised form equals `key`. -/
def slotMatches (wb : Workbook) (key : String) (i : Nat) : Bool :=
  match getCell wb (nameAddr i) with
  | .vstr s => if s = "" then false else if trimUp s = key then true else false
  | _ => false

/-- Every slot name cell is `None` or a string (the implicit precondition
of the slot-scanning code). -/
def namesWellTyped (wb : Workbook) : Bool :=
  (List.range 10).all (fun i => nameCellOk (getCell wb (nameAddr i)))

/-- Every slot name cell is non-empty in the sense of `add_ship_type`. -/
def allSlotsFilled (wb : Workbook) : Bool :=
  (List.range 10).all (fun i => !slotCellEmpty (getCell wb (nameAddr i)))

/-- The slot a `read_total_revenue` outcome resolved, with errors and the
not-found case kept apart. -/
def resultSlot : Except PyErr (Workbook × ReadRevenueResult) → Except PyErr (Option Nat)
  | .error e => .error e
  | .ok (_, .notFound _) => .ok none
  | .ok (_, .found _ s _ _ _ _) => .ok (some s)

/-! ## Concrete workbooks for counterexamples and witnesses -/

/-- Workbook with slot 3 named `"VLCC"` and every other cell empty; in
particular the slot-3 tax-exclusive revenue cell (calculations sheet,
M46) is empty. -/
def wbVLCC : Workbook := fun a =>
  if a = ⟨"i_Setup", "M", 34⟩ then .vstr "VLCC" else .vnone

/-- Workbook with slot 1 named `"VLCC"` and every other cell empty. -/
def wbV1 : Workbook := fun a =>
  if a = ⟨"i_Setup", "M", 32⟩ then .vstr "VLCC" else .vnone

/-- Completely empty workbook. -/
def wbEmptyWB : Workbook := fun _ => .vnone

/-- The file produced by `add_ship_type wbEmptyWB " " (some 1)`: a
whitespace-only name in slot 1 plus its active flag. -/
def wbSp : Workbook :=
  setCell (setCell wbEmptyWB ⟨setupSheet, "M", 32⟩ (.vstr " "))
    ⟨setupSheet, "P", 32⟩ (.vstr "Yes")

/-- Workbook whose every cell holds the string `"Ship"`; in particular
all ten slot name cells are non-empty. -/
def wbFull : Workbook := fun _ => .vstr "Ship"

/-- Workbook with only slot 1 occupied (by `"Tanker"`). -/
def wbOne : Workbook := fun a =>
  if a = ⟨"i_Setup", "M", 32⟩ then .vstr "Tanker" else .vnone

/-- Workbook holding the number 5 in the slot-1 name cell. -/
def wbNumeric : Workbook := fun a =>
  if a = ⟨"i_Setup", "M", 32⟩ then .vnum 5 else .vnone

/-- Forecast-input workbook with a header in row 6 and contiguous data
in rows 7..10 of column B. -/
def wbFore : Workbook := fun a =>
  if a.sheet = "Forecast input" && a.col = "B" && (6 ≤ a.row && a.row ≤ 10) then .vstr "x"
  else .vnone

/-- Forecast-input workbook whose column B holds only the header in
row 6: no data rows at all. -/
def wbForeEmpty : Workbook := fun a =>
  if a = ⟨"Forecast input", "B", 6⟩ then .vstr "Opportunity name" else .vnone

/-- Sales-forecast workbook with a header in row 6 and data in rows
7..9 of column B. -/
def wbForeOut : Workbook := fun a =>
  if a.sheet = "Sales forecast" && a.col = "B" && (6 ≤ a.row && a.row ≤ 9) then .vstr "m"
  else .vnone

/-- Sales-forecast workbook holding only the header row (row 6 of
columns B..D); column B has no data rows. -/
def wbFC : Workbook := fun a =>
  if a = ⟨"Sales forecast", "B", 6⟩ then .vstr "Month"
  else if a = ⟨"Sales forecast", "C", 6⟩ then .vstr "Monthly forecast"
  else if a = ⟨"Sales forecast", "D", 6⟩ then .vstr "Cumulative"
  else .vnone

/-! ## Helper lemmas -/

theorem getCell_setCell_ne (wb : Workbook) (a a' : Addr) (v : CellVal)
    (h : a' ≠ a) : getCell (setCell wb a v) a' = getCell wb a' := by
  simp [getCell, setCell, h]

theorem namesWellTyped_iff (wb : Workbook) :
    namesWellTyped wb = true ↔ ∀ j, j < 10 → nameCellOk (getCell wb (nameAddr j)) = true := by
  simp [namesWellTyped, List.all_eq_true, List.mem_range]

theorem allSlotsFilled_iff (wb : Workbook) :
    allSlotsFilled wb = true ↔ ∀ j, j < 10 → slotCellEmpty (getCell wb (nameAddr j)) = false := by
  simp [allSlotsFilled, List.all_eq_true, List.mem_range]

theorem findEmptyAux_none (wb : Workbook) :
    ∀ fuel i, (∀ j, j < fuel → slotCellEmpty (getCell wb (nameAddr (i + j))) = false) →
      findEmptyAux wb fuel i = none := by
  intro fuel
  induction fuel with
  | zero => intro i _; rfl
  | succ f ih =>
    intro i h
    have h0 : slotCellEmpty (getCell wb (nameAddr i)) = false := by
      simpa using h 0 (Nat.succ_pos f)
    simp only [findEmptyAux, h0, if_false, Bool.false_eq_true]
    apply ih
    intro j hj
    have e : i + 1 + j = i + (j + 1) := by omega
    rw [e]
    exact h (j + 1) (by omega)

theorem findEmptyAux_some (wb : Workbook) :
    ∀ fuel i k, k < fuel →
      slotCellEmpty (getCell wb (nameAddr (i + k))) = true →
      (∀ j, j < k → slotCellEmpty (getCell wb (nameAddr (i + j))) = false) →
      findEmptyAux wb fuel i = some (i + k + 1) := by
  intro fuel
  induction fuel with
  | zero => intro i k hk; omega
  | succ f ih =>
    intro i k hk hempty hbefore
    by_cases h0 : k = 0
    · subst h0
      have he : slotCellEmpty (getCell wb (nameAddr i)) = true := by simpa using hempty
      simp [findEmptyAux, he]
    · have hne : slotCellEmpty (getCell wb (nameAddr i)) = false := by
        simpa using hbefore 0 (by omega)
      simp only [findEmptyAux, hne, if_false, Bool.false_eq_true]
      have step := ih (i + 1) (k - 1) (by omega)
        (by rw [show i + 1 + (k - 1) = i + k from by omega]; exact hempty)
        (fun j hj => by
          rw [show i + 1 + j = i + (j + 1) from by omega]
          exact hbefore (j + 1) (by omega))
      rw [step, show i + 1 + (k - 1) + 1 = i + k + 1 from by omega]

theorem listAux_isOk (wb : Workbook) :
    ∀ fuel i, (∀ j, j < fuel → nameCellOk (getCell wb (nameAddr (i + j))) = true) →
      ∃ l, listAux wb fuel i = .ok l := by
  intro fuel
  induction fuel with
  | zero => intro i _; exact ⟨[], rfl⟩
  | succ f ih =>
    intro i h
    have hrec : ∀ j, j < f → nameCellOk (getCell wb (nameAddr (i + 1 + j))) = true := by
      intro j hj
      rw [show i + 1 + j = i + (j + 1) from by omega]
      exact h (j + 1) (by omega)
    have h0 : nameCellOk (getCell wb (nameAddr i)) = true := by
      simpa using h 0 (Nat.succ_pos f)
    obtain ⟨l, hl⟩ := ih (i + 1) hrec
    cases hcell : getCell wb (nameAddr i) with
    | vnone => exact ⟨l, by simp [listAux, hcell, hl]⟩
    | vstr s =>
      by_cases hs : s = ""
      · exact ⟨l, by simp [listAux, hcell, hs, hl]⟩
      · by_cases ht : pyStrip s = ""
        · exact ⟨l, by simp [listAux, hcell, hs, ht, hl]⟩
        · exact ⟨⟨i + 1, s, shipTypeStartRow + i⟩ :: l, by simp [listAux, hcell, hs, ht, hl]⟩
    | vnum n =>
      rw [hcell] at h0
      simp [nameCellOk] at h0

theorem listAux_slot_lb (wb : Workbook) :
    ∀ fuel i l, listAux wb fuel i = .ok l → ∀ e ∈ l, i + 1 ≤ e.slot := by
  intro fuel
  induction fuel with
  | zero =>
    intro i l h e he
    simp only [listAux] at h
    cases h
    simp at he
  | succ f ih =>
    intro i l h e he
    cases hcell : getCell wb (nameAddr i) with
    | vnone =>
      simp only [listAux, hcell] at h
      have := ih (i + 1) l h e he
      omega
    | vstr s =>
      simp only [listAux, hcell] at h
      by_cases hs : s = ""
      · rw [if_pos hs] at h
        have := ih (i + 1) l h e he
        omega
      · rw [if_neg hs] at h
        by_cases ht : pyStrip s = ""
        · rw [if_pos ht] at h
          have := ih (i + 1) l h e he
          omega
        · rw [if_neg ht] at h
          cases hrec : listAux wb f (i + 1) with
          | error e2 => rw [hrec] at h; cases h
          | ok rest =>
            rw [hrec] at h
            cases h
            rcases List.mem_cons.mp he with h1 | h1
            · subst h1; simp
            · have := ih (i + 1) rest hrec e h1
              omega
    | vnum n =>
      simp only [listAux, hcell] at h
      by_cases hn : n = 0
      · rw [if_pos hn] at h
        have := ih (i + 1) l h e he
        omega
      · rw [if_neg hn] at h
        cases h

theorem filter_nil_of {α : Type} (p : α → Bool) :
    ∀ l : List α, (∀ a ∈ l, p a = false) → l.filter p = [] := by
  intro l h
  induction l with
  | nil => rfl
  | cons a as ih =>
    have ha := h a (List.mem_cons_self a as)
    rw [List.filter_cons, ha]
    simp only [Bool.false_eq_true, if_false]
    exact ih (fun x hx => h x (List.mem_cons_of_mem a hx))

theorem listAux_filter (wb : Workbook) (name : String) (hname : pyStrip name ≠ "") :
    ∀ fuel i t, i ≤ t → t < i + fuel →
      getCell wb (nameAddr t) = .vstr name →
      (∀ j, i ≤ j → j < i + fuel → j ≠ t → nameCellOk (getCell wb (nameAddr j)) = true) →
      ∃ l, listAux wb fuel i = .ok l ∧
        l.filter (fun e => e.slot == t + 1 && e.name == name) =
          [⟨t + 1, name, shipTypeStartRow + t⟩] := by
  have hname0 : name ≠ "" := by
    intro h0
    subst h0
    exact hname rfl
  intro fuel
  induction fuel with
  | zero => intro i t h1 h2; omega
  | succ f ih =>
    intro i t h1 h2 hcell hok
    by_cases hit : i = t
    · subst hit
      have hrecOk : ∃ rest, listAux wb f (i + 1) = .ok rest := by
        apply listAux_isOk
        intro j hj
        apply hok (i + 1 + j) (by omega) (by omega) (by omega)
      obtain ⟨rest, hrest⟩ := hrecOk
      refine ⟨⟨i + 1, name, shipTypeStartRow + i⟩ :: rest, ?_, ?_⟩
      · simp [listAux, hcell, hname0, hname, hrest]
      · rw [List.filter_cons]
        have hhead : ((⟨i + 1, name, shipTypeStartRow + i⟩ : ShipEntry).slot == i + 1 &&
            (⟨i + 1, name, shipTypeStartRow + i⟩ : ShipEntry).name == name) = true := by
          simp
        rw [hhead]
        simp only [if_true]
        have hrest_nil : rest.filter (fun e => e.slot == i + 1 && e.name == name) = [] := by
          apply filter_nil_of
          intro e he
          have hlb := listAux_slot_lb wb f (i + 1) rest hrest e he
          have : (e.slot == i + 1) = false := by
            simp only [beq_eq_false_iff_ne, ne_eq]
            omega
          simp [this]
        rw [hrest_nil]
    · have hlt : i < t := by omega
      have hoki : nameCellOk (getCell wb (nameAddr i)) = true :=
        hok i (by omega) (by omega) hit
      have hstep := ih (i + 1) t (by omega) (by omega) hcell
        (fun j hj1 hj2 hj3 => hok j (by omega) (by omega) hj3)
      obtain ⟨l, hl, hfil⟩ := hstep
      cases hc : getCell wb (nameAddr i) with
      | vnone => exact ⟨l, by simp [listAux, hc, hl], hfil⟩
      | vstr s =>
        by_cases hs : s = ""
        · exact ⟨l, by simp [listAux, hc, hs, hl], hfil⟩
        · by_cases ht : pyStrip s = ""
          · exact ⟨l, by simp [listAux, hc, hs, ht, hl], hfil⟩
          · refine ⟨⟨i + 1, s, shipTypeStartRow + i⟩ :: l,
              by simp [listAux, hc, hs, ht, hl], ?_⟩
            rw [List.filter_cons]
            have hhead : ((⟨i + 1, s, shipTypeStartRow + i⟩ : ShipEntry).slot == t + 1 &&
                (⟨i + 1, s, shipTypeStartRow + i⟩ : ShipEntry).name == name) = false := by
              have : ((i + 1 : Nat) == t + 1) = false := by
                simp only [beq_eq_false_iff_ne, ne_eq]
                omega
              simp [this]
            rw [hhead]
            simp only [Bool.false_eq_true, if_false]
            exact hfil
      | vnum n =>
        rw [hc] at hoki
        simp [nameCellOk] at hoki

theorem slotScanAux_isOk (wb : Workbook) (key : String) :
    ∀ fuel i, (∀ j, j < fuel → nameCellOk (getCell wb (nameAddr (i + j))) = true) →
      ∃ r, slotScanAux wb key fuel i = .ok r := by
  intro fuel
  induction fuel with
  | zero => intro i _; exact ⟨none, rfl⟩
  | succ f ih =>
    intro i h
    have h0 : nameCellOk (getCell wb (nameAddr i)) = true := by
      simpa using h 0 (Nat.succ_pos f)
    have hrec : ∀ j, j < f → nameCellOk (getCell wb (nameAddr (i + 1 + j))) = true := by
      intro j hj
      rw [show i + 1 + j = i + (j + 1) from by omega]
      exact h (j + 1) (by omega)
    obtain ⟨r, hr⟩ := ih (i + 1) hrec
    cases hcell : getCell wb (nameAddr i) with
    | vnone => exact ⟨r, by simp [slotScanAux, hcell, hr]⟩
    | vstr s =>
      by_cases hs : s = ""
      · exact ⟨r, by simp [slotScanAux, hcell, hs, hr]⟩
      · by_cases hk : trimUp s = key
        · exact ⟨some (i + 1), by simp [slotScanAux, hcell, hs, hk]⟩
        · exact ⟨r, by simp [slotScanAux, hcell, hs, hk, hr]⟩
    | vnum n =>
      rw [hcell] at h0
      simp [nameCellOk] at h0

theorem slotScanAux_some (wb : Workbook) (key : String) :
    ∀ fuel i s, slotScanAux wb key fuel i = .ok (some s) →
      i + 1 ≤ s ∧ s ≤ i + fuel ∧ slotMatches wb key (s - 1) = true ∧
        ∀ j, i ≤ j → j < s - 1 → slotMatches wb key j = false := by
  intro fuel
  induction fuel with
  | zero =>
    intro i s h
    simp only [slotScanAux] at h
    cases h
  | succ f ih =>
    intro i s h
    cases hcell : getCell wb (nameAddr i) with
    | vnone =>
      simp only [slotScanAux, hcell] at h
      obtain ⟨ha, hb, hc, hd⟩ := ih (i + 1) s h
      refine ⟨by omega, by omega, hc, ?_⟩
      intro j hj1 hj2
      by_cases hji : j = i
      · subst hji
        simp [slotMatches, hcell]
      · exact hd j (by omega) hj2
    | vstr s' =>
      simp only [slotScanAux, hcell] at h
      by_cases hs : s' = ""
      · rw [if_pos hs] at h
        obtain ⟨ha, hb, hc, hd⟩ := ih (i + 1) s h
        refine ⟨by omega, by omega, hc, ?_⟩
        intro j hj1 hj2
        by_cases hji : j = i
        · subst hji
          simp [slotMatches, hcell, hs]
        · exact hd j (by omega) hj2
      · rw [if_neg hs] at h
        by_cases hk : trimUp s' = key
        · rw [if_pos hk] at h
          have hsi : s = i + 1 := by
            cases h
            rfl
          subst hsi
          refine ⟨le_refl _, by omega, ?_, ?_⟩
          · simp [slotMatches, hcell, hs, hk]
          · intro j hj1 hj2
            omega
        · rw [if_neg hk] at h
          obtain ⟨ha, hb, hc, hd⟩ := ih (i + 1) s h
          refine ⟨by omega, by omega, hc, ?_⟩
          intro j hj1 hj2
          by_cases hji : j = i
          · subst hji
            simp [slotMatches, hcell, hs, hk]
          · exact hd j (by omega) hj2
    | vnum n =>
      simp only [slotScanAux, hcell] at h
      by_cases hn : n = 0
      · rw [if_pos hn] at h
        obtain ⟨ha, hb, hc, hd⟩ := ih (i + 1) s h
        refine ⟨by omega, by omega, hc, ?_⟩
        intro j hj1 hj2
        by_cases hji : j = i
        · subst hji
          simp [slotMatches, hcell]
        · exact hd j (by omega) hj2
      · rw [if_neg hn] at h
        cases h

theorem addr_ne_of_sheet {s1 s2 c1 c2 : String} {r1 r2 : Nat} (h : s1 ≠ s2) :
    (⟨s1, c1, r1⟩ : Addr) ≠ ⟨s2, c2, r2⟩ := by
  intro he
  injection he with h1 _ _
  exact h h1

theorem addr_ne_of_col {s1 s2 c1 c2 : String} {r1 r2 : Nat} (h : c1 ≠ c2) :
    (⟨s1, c1, r1⟩ : Addr) ≠ ⟨s2, c2, r2⟩ := by
  intro he
  injection he with _ h2 _
  exact h h2

theorem addr_ne_of_row {s1 s2 c1 c2 : String} {r1 r2 : Nat} (h : r1 ≠ r2) :
    (⟨s1, c1, r1⟩ : Addr) ≠ ⟨s2, c2, r2⟩ := by
  intro he
  injection he with _ _ h3
  exact h h3

/-! ## Claim C4 -/

/-- C4: when all ten slot name cells are non-empty, `addShipType` with no
slot argument returns the structured failure `{success:false, message}`
without raising, leaves every cell of the workbook unchanged (the
returned file is the input workbook itself) and does not save. -/
theorem claim_C4_theorem (wb : Workbook) (name : String)
    (h : allSlotsFilled wb = true) :
    add_ship_type wb name none = .ok ⟨wb, false, .allFull allFullMessage⟩ := by
  have hall := (allSlotsFilled_iff wb).mp h
  have hnone : findEmptyAux wb 10 0 = none := by
    apply findEmptyAux_none
    intro j hj
    simpa using hall j (by omega)
  simp [add_ship_type, hnone]

/-- Witness for C4 at the concrete workbook whose slots are all taken. -/
theorem claim_C4_witness :
    allSlotsFilled wbFull = true ∧
      add_ship_type wbFull "VLCC" none = .ok ⟨wbFull, false, .allFull allFullMessage⟩ :=
  ⟨rfl, claim_C4_theorem wbFull "VLCC" rfl⟩

/-! ## Claim C7 -/

/-- C7: whenever slot `s` is empty (name cell null or the empty string)
and every lower-numbered slot is non-empty, `addShipType` with no slot
argument selects slot `s`, writes the name into its name cell and `"Yes"`
into its flag cell, saves, and reports slot `s`. -/
theorem claim_C7_theorem (wb : Workbook) (name : String) (s : Nat)
    (h1 : 1 ≤ s) (h2 : s ≤ 10)
    (hs : slotCellEmpty (getCell wb (nameAddr (s - 1))) = true)
    (hlt : ∀ j, j < s - 1 → slotCellEmpty (getCell wb (nameAddr j)) = false) :
    add_ship_type wb name none =
      .ok ⟨setCell (setCell wb ⟨setupSheet, "M", shipTypeStartRow + s - 1⟩ (.vstr name))
            ⟨setupSheet, "P", shipTypeStartRow + s - 1⟩ (.vstr "Yes"),
          true, .added s (shipTypeStartRow + s - 1) (addedMessage name s)⟩ := by
  have hfind : findEmptyAux wb 10 0 = some s := by
    have step := findEmptyAux_some wb 10 0 (s - 1) (by omega)
      (by simpa using hs) (fun j hj => by simpa using hlt j hj)
    rw [show 0 + (s - 1) + 1 = s from by omega] at step
    exact step
  simp only [add_ship_type, hfind, writeShipType]

/-- Witness for C7: on `wbOne` the lowest empty slot is slot 2. -/
theorem claim_C7_witness :
    slotCellEmpty (getCell wbOne (nameAddr (2 - 1))) = true ∧
      add_ship_type wbOne "VLCC" none =
        .ok ⟨setCell (setCell wbOne ⟨setupSheet, "M", shipTypeStartRow + 2 - 1⟩ (.vstr "VLCC"))
              ⟨setupSheet, "P", shipTypeStartRow + 2 - 1⟩ (.vstr "Yes"),
            true, .added 2 (shipTypeStartRow + 2 - 1) (addedMessage "VLCC" 2)⟩ :=
  ⟨rfl, claim_C7_theorem wbOne "VLCC" 2 (by omega) (by omega) rfl
    (by intro j hj; interval_cases j; rfl)⟩

/-! ## Claim C10 -/

/-- C10: a non-string (numeric) value in a slot name cell makes
`listShipTypes` and `readTotalRevenue` raise an `AttributeError` while
trimming the cell value, as the concrete workbook `wbNumeric` shows;
under the precondition that every non-null name cell holds a string,
that error branch is unreachable: `listShipTypes` returns a result and
`readTotalRevenue` never fails with an `AttributeError`. -/
theorem claim_C10_theorem (wb : Workbook) (h : namesWellTyped wb = true) :
    exceptOk (get_all_ship_types wb) = true ∧
      (∀ name tax, read_total_revenue wb name tax ≠ .error .attrError) ∧
      get_all_ship_types wbNumeric = .error .attrError ∧
      read_total_revenue wbNumeric "Tanker" false = .error .attrError := by
  have hok := (namesWellTyped_iff wb).mp h
  refine ⟨?_, ?_, rfl, rfl⟩
  · obtain ⟨l, hl⟩ := listAux_isOk wb 10 0 (fun j hj => by simpa using hok j (by omega))
    simp [get_all_ship_types, hl, exceptOk]
  · intro name tax
    obtain ⟨r, hr⟩ := slotScanAux_isOk wb (trimUp name) 10 0
      (fun j hj => by simpa using hok j (by omega))
    have hr' : findShipSlot wb name = .ok r := hr
    cases r with
    | none => simp [read_total_revenue, hr']
    | some sl =>
      cases hrv : getCell wb ⟨calcSheet, "M", (if tax then 61 else 44) + (sl - 1)⟩ with
      | vnone => simp [read_total_revenue, hr', hrv]
      | vstr s2 => simp [read_total_revenue, hr', hrv]
      | vnum v => simp [read_total_revenue, hr', hrv]

/-- Witness for C10 at a workbook whose name cells are all null or
strings. -/
theorem claim_C10_witness :
    namesWellTyped wbV1 = true ∧ exceptOk (get_all_ship_types wbV1) = true ∧
      read_total_revenue wbV1 "Zed" true ≠ .error .attrError :=
  ⟨rfl, (claim_C10_theorem wbV1 rfl).1, (claim_C10_theorem wbV1 rfl).2.1 "Zed" true⟩

/-! ## Claim C1 -/

/-- C1 counterexample: with slot 3 holding `"VLCC"` and the slot-3
tax-exclusive revenue cell empty, `readTotalRevenue("vlcc")` does not
seed `300000` and does not return a success result; it raises a
`TypeError` (formatting the null revenue value), so no cell is ever
written. -/
theorem claim_C1_counterexample :
    read_total_revenue wbVLCC "vlcc" false = .error .typeError ∧
      exceptOk (read_total_revenue wbVLCC "vlcc" false) = false :=
  ⟨rfl, rfl⟩

/-- C1 amended: no placeholder revenue seeding exists anywhere.
`readTotalRevenue` never writes a cell (whenever it returns, the
returned workbook is the unchanged input), and `addShipType` never
touches the calculations sheet, so the revenue cells keep their prior
values; an empty revenue cell makes `readTotalRevenue` raise instead of
returning a seeded figure (see the counterexample). -/
theorem claim_C1_theorem :
    (∀ wb name tax res, read_total_revenue wb name tax = .ok res → res.1 = wb) ∧
    (∀ wb name slot out, add_ship_type wb name slot = .ok out →
      ∀ c r, getCell out.file ⟨calcSheet, c, r⟩ = getCell wb ⟨calcSheet, c, r⟩) := by
  have hcalc : ∀ (c col : String) (r row : Nat),
      (⟨calcSheet, c, r⟩ : Addr) ≠ ⟨setupSheet, col, row⟩ := by
    intro c col r row
    exact addr_ne_of_sheet (by decide)
  constructor
  · intro wb name tax res h
    cases hscan : findShipSlot wb name with
    | error e =>
      simp [read_total_revenue, hscan] at h
    | ok r =>
      cases r with
      | none =>
        simp only [read_total_revenue, hscan] at h
        cases h
        rfl
      | some sl =>
        cases hrv : getCell wb ⟨calcSheet, "M", (if tax then 61 else 44) + (sl - 1)⟩ with
        | vnone => simp [read_total_revenue, hscan, hrv] at h
        | vstr s2 => simp [read_total_revenue, hscan, hrv] at h
        | vnum v =>
          simp only [read_total_revenue, hscan, hrv] at h
          cases h
          rfl
  · intro wb name slot out hout c r
    cases slot with
    | some sl =>
      simp only [add_ship_type] at hout
      split at hout
      · cases hout
      · simp only [writeShipType] at hout
        cases hout
        simp only []
        rw [getCell_setCell_ne _ _ _ _ (hcalc c "P" r _),
          getCell_setCell_ne _ _ _ _ (hcalc c "M" r _)]
    | none =>
      simp only [add_ship_type] at hout
      cases hfind : findEmptyAux wb 10 0 with
      | none =>
        rw [hfind] at hout
        cases hout
        rfl
      | some sl =>
        rw [hfind] at hout
        simp only [writeShipType] at hout
        cases hout
        simp only []
        rw [getCell_setCell_ne _ _ _ _ (hcalc c "P" r _),
          getCell_setCell_ne _ _ _ _ (hcalc c "M" r _)]

/-- Witness for C1 amended: the not-found read returns the unchanged
workbook, and a successful `addShipType` leaves the slot-1 tax-exclusive
revenue cell exactly as it was. -/
theorem claim_C1_witness :
    ((wbV1, ReadRevenueResult.notFound (notFoundMessage "Nope")) :
        Workbook × ReadRevenueResult).1 = wbV1 ∧
      getCell wbSp ⟨calcSheet, "M", 44⟩ = getCell wbEmptyWB ⟨calcSheet, "M", 44⟩ :=
  ⟨claim_C1_theorem.1 wbV1 "Nope" false _ rfl,
    claim_C1_theorem.2 wbEmptyWB " " (some 1)
      ⟨wbSp, true, .added 1 32 (addedMessage " " 1)⟩ rfl "M" 44⟩

/-! ## Claim C2 -/

/-- C2 counterexample: slot 1 holds `"VLCC"` and its tax-exclusive
revenue cell is empty; `readTotalRevenue("VLCC")` raises a `TypeError`
instead of treating the null value as 0 and returning a success
result. -/
theorem claim_C2_counterexample :
    read_total_revenue wbV1 "VLCC" false = .error .typeError ∧
      exceptOk (read_total_revenue wbV1 "VLCC" false) = false :=
  ⟨rfl, rfl⟩

/-- C2 amended: for every ship name that matches a slot, if the revenue
cell for that slot is empty (null), `readTotalRevenue` raises a
`TypeError` while formatting the result message — a null revenue is an
error, not 0. -/
theorem claim_C2_theorem (wb : Workbook) (name : String) (tax : Bool) (s : Nat)
    (hslot : findShipSlot wb name = .ok (some s))
    (hrv : getCell wb ⟨calcSheet, "M", (if tax then 61 else 44) + (s - 1)⟩ = .vnone) :
    read_total_revenue wb name tax = .error .typeError := by
  simp [read_total_revenue, hslot, hrv]

/-- Witness for C2 amended at the slot-3 workbook. -/
theorem claim_C2_witness :
    findShipSlot wbVLCC "VLCC" = .ok (some 3) ∧
      getCell wbVLCC ⟨calcSheet, "M", (if false then 61 else 44) + (3 - 1)⟩ = .vnone ∧
      read_total_revenue wbVLCC "VLCC" false = .error .typeError :=
  ⟨rfl, rfl, claim_C2_theorem wbVLCC "VLCC" false 3 rfl rfl⟩

/-! ## Claim C6 -/

/-- C6: `readTotalRevenue` name matching is case-insensitive and
whitespace-trimmed — two names with the same trimmed upper-cased form
resolve identically at the slot-scan level and at the level of the
returned slot; the scan visits slots ascending and returns the first
match (a returned slot matches and every lower slot fails the match);
and when no slot matches, the call returns the structured not-found
failure result. -/
theorem claim_C6_theorem :
    (∀ wb n1 n2, trimUp n1 = trimUp n2 → findShipSlot wb n1 = findShipSlot wb n2) ∧
    (∀ wb n1 n2 tax, trimUp n1 = trimUp n2 →
      resultSlot (read_total_revenue wb n1 tax) = resultSlot (read_total_revenue wb n2 tax)) ∧
    (∀ wb n s, findShipSlot wb n = .ok (some s) →
      1 ≤ s ∧ s ≤ 10 ∧ slotMatches wb (trimUp n) (s - 1) = true ∧
        ∀ j, j < s - 1 → slotMatches wb (trimUp n) j = false) ∧
    (∀ wb n tax, findShipSlot wb n = .ok none →
      read_total_revenue wb n tax = .ok (wb, .notFound (notFoundMessage n))) := by
  have hfind : ∀ wb n1 n2, trimUp n1 = trimUp n2 →
      findShipSlot wb n1 = findShipSlot wb n2 := by
    intro wb n1 n2 h
    simp only [findShipSlot, h]
  refine ⟨hfind, ?_, ?_, ?_⟩
  · intro wb n1 n2 tax h
    have he := hfind wb n1 n2 h
    cases hr : findShipSlot wb n2 with
    | error e =>
      rw [hr] at he
      simp [read_total_revenue, he, hr, resultSlot]
    | ok r =>
      rw [hr] at he
      cases r with
      | none => simp [read_total_revenue, he, hr, resultSlot]
      | some sl =>
        cases hrv : getCell wb ⟨calcSheet, "M", (if tax then 61 else 44) + (sl - 1)⟩ with
        | vnone => simp [read_total_revenue, he, hr, hrv, resultSlot]
        | vstr s2 => simp [read_total_revenue, he, hr, hrv, resultSlot]
        | vnum v => simp [read_total_revenue, he, hr, hrv, resultSlot]
  · intro wb n s h
    obtain ⟨ha, hb, hc, hd⟩ := slotScanAux_some wb (trimUp n) 10 0 s h
    exact ⟨ha, by omega, hc, fun j hj => hd j (by omega) hj⟩
  · intro wb n tax h
    simp [read_total_revenue, h]

/-- Witness for C6 on concrete names and the slot-1 workbook. -/
theorem claim_C6_witness :
    trimUp " container ships " = trimUp "Container Ships" ∧
      findShipSlot wbV1 " container ships " = findShipSlot wbV1 "Container Ships" ∧
      slotMatches wbV1 (trimUp "vlcc") (1 - 1) = true ∧
      read_total_revenue wbV1 "Nada" false = .ok (wbV1, .notFound (notFoundMessage "Nada")) :=
  ⟨rfl, claim_C6_theorem.1 wbV1 " container ships " "Container Ships" rfl,
    (claim_C6_theorem.2.2.1 wbV1 "vlcc" 1 rfl).2.2.1,
    claim_C6_theorem.2.2.2 wbV1 "Nada" false rfl⟩

/-! ## Claim C5 -/

/-- C5 counterexample: the whitespace-only name `" "` is a non-empty
string; `addShipType(" ", 1)` writes it into slot 1 and reports success,
but the subsequent `listShipTypes()` contains no entry at all for slot 1
(the listing filters on the trimmed name), refuting "exactly one entry
with that slot and that name". -/
theorem claim_C5_counterexample :
    add_ship_type wbEmptyWB " " (some 1) =
        .ok ⟨wbSp, true, .added 1 32 (addedMessage " " 1)⟩ ∧
      getCell wbSp (nameAddr 0) = .vstr " " ∧
      get_all_ship_types wbSp = .ok [] :=
  ⟨rfl, rfl, rfl⟩

/-- C5 amended: for every slot in 1..10 and every name that is non-blank
(non-empty after trimming), on a workbook whose other slot name cells
are null or strings (cf. C10), `addShipType(name, slot)` overwrites the
slot's name cell with the name, writes `"Yes"` into column P of the same
row, returns success with that slot and row, and a subsequent
`listShipTypes()` contains exactly one entry with that slot and that
name.  (The original claim fails only for names that are non-empty but
all-whitespace; see the counterexample.) -/
theorem claim_C5_theorem (wb : Workbook) (name : String) (slot : Int)
    (h1 : 1 ≤ slot) (h2 : slot ≤ 10) (hname : pyStrip name ≠ "")
    (hok : ∀ j, j < 10 → j ≠ slot.toNat - 1 → nameCellOk (getCell wb (nameAddr j)) = true) :
    ∃ wb2,
      add_ship_type wb name (some slot) =
        .ok ⟨wb2, true, .added slot.toNat (shipTypeStartRow + slot.toNat - 1)
          (addedMessage name slot.toNat)⟩ ∧
      getCell wb2 (nameAddr (slot.toNat - 1)) = .vstr name ∧
      getCell wb2 ⟨setupSheet, "P", shipTypeStartRow + slot.toNat - 1⟩ = .vstr "Yes" ∧
      ∃ l, get_all_ship_types wb2 = .ok l ∧
        l.filter (fun e => e.slot == slot.toNat && e.name == name) =
          [⟨slot.toNat, name, shipTypeStartRow + (slot.toNat - 1)⟩] := by
  obtain ⟨t, htn⟩ : ∃ t, slot.toNat = t + 1 := ⟨slot.toNat - 1, by omega⟩
  have ht10 : t < 10 := by omega
  rw [htn]
  simp only [Nat.add_sub_cancel]
  have hrow : shipTypeStartRow + (t + 1) - 1 = shipTypeStartRow + t := by omega
  rw [hrow]
  have hcond : (decide (slot < 1) || decide (slot > 10)) = false := by
    rw [decide_eq_false (by omega : ¬slot < 1), decide_eq_false (by omega : ¬slot > 10)]
    rfl
  refine ⟨setCell (setCell wb ⟨setupSheet, "M", shipTypeStartRow + t⟩ (.vstr name))
    ⟨setupSheet, "P", shipTypeStartRow + t⟩ (.vstr "Yes"), ?_, ?_, ?_, ?_⟩
  · simp only [add_ship_type, hcond, Bool.false_eq_true, if_false, writeShipType, htn,
      hrow]
  · rw [show nameAddr t = ⟨setupSheet, "M", shipTypeStartRow + t⟩ from rfl]
    rw [getCell_setCell_ne _ _ _ _ (addr_ne_of_col (by decide))]
    simp [getCell, setCell]
  · simp [getCell, setCell]
  · have hcell2 : getCell (setCell (setCell wb ⟨setupSheet, "M", shipTypeStartRow + t⟩
        (.vstr name)) ⟨setupSheet, "P", shipTypeStartRow + t⟩ (.vstr "Yes"))
        (nameAddr t) = .vstr name := by
      rw [show nameAddr t = ⟨setupSheet, "M", shipTypeStartRow + t⟩ from rfl]
      rw [getCell_setCell_ne _ _ _ _ (addr_ne_of_col (by decide))]
      simp [getCell, setCell]
    have hok2 : ∀ j, 0 ≤ j → j < 0 + 10 → j ≠ t →
        nameCellOk (getCell (setCell (setCell wb ⟨setupSheet, "M", shipTypeStartRow + t⟩
          (.vstr name)) ⟨setupSheet, "P", shipTypeStartRow + t⟩ (.vstr "Yes"))
          (nameAddr j)) = true := by
      intro j _ hj hjt
      have hne : (shipTypeStartRow + j : Nat) ≠ shipTypeStartRow + t := by omega
      rw [show nameAddr j = ⟨setupSheet, "M", shipTypeStartRow + j⟩ from rfl]
      rw [getCell_setCell_ne _ _ _ _ (addr_ne_of_row hne),
        getCell_setCell_ne _ _ _ _ (addr_ne_of_row hne)]
      exact hok j (by omega) (by omega)
    obtain ⟨l, hl, hfil⟩ := listAux_filter _ name hname 10 0 t (by omega) (by omega)
      hcell2 hok2
    exact ⟨l, hl, hfil⟩

/-- Witness for C5 amended: adding `"VLCC"` to slot 2 of `wbOne`. -/
theorem claim_C5_witness :
    pyStrip "VLCC" ≠ "" ∧
      ∃ wb2,
        add_ship_type wbOne "VLCC" (some 2) =
          .ok ⟨wb2, true, .added (2 : Int).toNat (shipTypeStartRow + (2 : Int).toNat - 1)
            (addedMessage "VLCC" (2 : Int).toNat)⟩ ∧
        getCell wb2 (nameAddr ((2 : Int).toNat - 1)) = .vstr "VLCC" ∧
        getCell wb2 ⟨setupSheet, "P", shipTypeStartRow + (2 : Int).toNat - 1⟩ = .vstr "Yes" ∧
        ∃ l, get_all_ship_types wb2 = .ok l ∧
          l.filter (fun e => e.slot == (2 : Int).toNat && e.name == "VLCC") =
            [⟨(2 : Int).toNat, "VLCC", shipTypeStartRow + ((2 : Int).toNat - 1)⟩] :=
  ⟨by decide, claim_C5_theorem wbOne "VLCC" 2 (by omega) (by omega) (by decide)
    (by intro j hj hjt; interval_cases j <;> simp_all <;> rfl)⟩

/-! ## Boundary-scan lemmas for the forecast model -/

theorem scanDown_ge (wb : Workbook) (sheet col : String) :
    ∀ fuel r, min r MAX_ROW ≤ scanDown wb sheet col fuel r := by
  intro fuel
  induction fuel with
  | zero =>
    intro r
    simp only [scanDown]
    omega
  | succ f ih =>
    intro r
    simp only [scanDown]
    split
    · omega
    · have := ih (r + 1)
      omega

theorem scanDown_none (wb : Workbook) (sheet col : String) :
    ∀ fuel r, (∀ j, r ≤ j → cellFilled wb sheet col j = false) →
      scanDown wb sheet col fuel r = MAX_ROW := by
  intro fuel
  induction fuel with
  | zero => intro r _; rfl
  | succ f ih =>
    intro r h
    simp only [scanDown, h r (le_refl r), Bool.false_eq_true, if_false]
    exact ih (r + 1) (fun j hj => h j (by omega))

theorem runEnd_ge (wb : Workbook) (sheet col : String) :
    ∀ fuel r, r ≤ runEnd wb sheet col fuel r := by
  intro fuel
  induction fuel with
  | zero => intro r; simp [runEnd]
  | succ f ih =>
    intro r
    simp only [runEnd]
    split
    · have := ih (r + 1)
      omega
    · omega

theorem runEnd_eq (wb : Workbook) (sheet col : String) :
    ∀ fuel r e, r ≤ e → e ≤ r + fuel →
      (∀ j, r < j → j ≤ e → cellFilled wb sheet col j = true) →
      cellFilled wb sheet col (e + 1) = false →
      runEnd wb sheet col fuel r = e := by
  intro fuel
  induction fuel with
  | zero =>
    intro r e h1 h2 _ _
    simp only [runEnd]
    omega
  | succ f ih =>
    intro r e h1 h2 hfill hstop
    by_cases hre : r = e
    · subst hre
      simp only [runEnd, hstop, Bool.false_eq_true, if_false]
    · have hf1 : cellFilled wb sheet col (r + 1) = true := hfill (r + 1) (by omega) (by omega)
      simp only [runEnd, hf1, if_true]
      exact ih (r + 1) e (by omega) (by omega) (fun j hj1 hj2 => hfill j (by omega) hj2) hstop

theorem end_down_ge8 (wb : Workbook) (sheet col : String) :
    8 ≤ end_down wb sheet col 7 := by
  simp only [end_down]
  split
  · rename_i hcond
    rw [Bool.and_eq_true] at hcond
    have h8 : cellFilled wb sheet col 8 = true := by
      have := hcond.2
      simpa using this
    rw [show MAX_ROW - 7 = 1048568 + 1 from rfl]
    have hstep : runEnd wb sheet col (1048568 + 1) 7 =
        if cellFilled wb sheet col 8 = true then runEnd wb sheet col 1048568 8 else 7 := rfl
    rw [hstep, if_pos h8]
    exact runEnd_ge wb sheet col 1048568 8
  · have := scanDown_ge wb sheet col (MAX_ROW - 7) (7 + 1)
    have hMR : (8 : Nat) ≤ MAX_ROW := by simp [MAX_ROW]
    omega

theorem end_down_contig (wb : Workbook) (sheet col : String) (r : Nat)
    (h8 : 8 ≤ r) (hM : r ≤ MAX_ROW)
    (hfill : ∀ j, 7 ≤ j → j ≤ r → cellFilled wb sheet col j = true)
    (hnext : cellFilled wb sheet col (r + 1) = false) :
    end_down wb sheet col 7 = r := by
  have h7 : cellFilled wb sheet col 7 = true := hfill 7 (by omega) (by omega)
  have h8' : cellFilled wb sheet col 8 = true := hfill 8 (by omega) (by omega)
  have hcond : (cellFilled wb sheet col 7 && cellFilled wb sheet col (7 + 1)) = true := by
    simpa [h7] using h8'
  simp only [end_down, hcond, if_true]
  exact runEnd_eq wb sheet col (MAX_ROW - 7) 7 r (by omega) (by omega)
    (fun j hj1 hj2 => hfill j (by omega) hj2) hnext

theorem end_down_empty (wb : Workbook) (sheet col : String)
    (h : ∀ j, 7 ≤ j → cellFilled wb sheet col j = false) :
    end_down wb sheet col 7 = MAX_ROW := by
  have h7 : cellFilled wb sheet col 7 = false := h 7 (by omega)
  simp only [end_down, h7, Bool.false_and, Bool.false_eq_true, if_false]
  exact scanDown_none wb sheet col (MAX_ROW - 7) 8 (fun j hj => h j (by omega))

theorem readRows_len (wb : Workbook) : ∀ n start, (readRows wb start n).length = n := by
  intro n
  induction n with
  | zero => intro s; rfl
  | succ k ih =>
    intro s
    simp only [readRows, List.length_cons, ih]

/-- Shape of `read_sales_forecast` with `as_dataframe`: the Ctrl+Down
scan always lands at row 8 or below, so the data list always has at
least three rows and the DataFrame branch is always taken. -/
theorem rsf_shape (wb : Workbook) :
    read_sales_forecast wb true =
      .table (rowVals wb 6)
        (rowVals wb 7 :: readRows wb 8 (end_down wb forecastSheet "B" 7 - 7)) := by
  have h8 := end_down_ge8 wb forecastSheet "B"
  have hcount : end_down wb forecastSheet "B" 7 - 5 =
      (end_down wb forecastSheet "B" 7 - 7) + 2 := by omega
  simp only [read_sales_forecast, hcount]
  rfl

/-! ## Claim C8 -/

theorem wbFC_empty_below : ∀ j, 7 ≤ j → cellFilled wbFC forecastSheet "B" j = false := by
  intro j hj
  have hn1 : (⟨forecastSheet, "B", j⟩ : Addr) ≠ ⟨"Sales forecast", "B", 6⟩ :=
    addr_ne_of_row (by omega)
  have hn2 : (⟨forecastSheet, "B", j⟩ : Addr) ≠ ⟨"Sales forecast", "C", 6⟩ :=
    addr_ne_of_col (by decide)
  have hn3 : (⟨forecastSheet, "B", j⟩ : Addr) ≠ ⟨"Sales forecast", "D", 6⟩ :=
    addr_ne_of_col (by decide)
  simp [cellFilled, getCell, wbFC, hn1, hn2, hn3]

/-- C8 counterexample: on a sheet whose column B holds only the header
(row 6), the range through the last non-empty row of column B has a
single row, yet `readForecastOutput` does not return an empty table: the
Ctrl+Down scan jumps to the sheet bottom and the DataFrame branch is
taken. -/
theorem claim_C8_counterexample :
    getCell wbFC ⟨forecastSheet, "B", 6⟩ = .vstr "Month" ∧
      getCell wbFC ⟨forecastSheet, "B", 7⟩ = .vnone ∧
      end_down wbFC forecastSheet "B" 7 = MAX_ROW ∧
      read_sales_forecast wbFC true ≠ .emptyTable := by
  refine ⟨rfl, rfl, end_down_empty _ _ _ wbFC_empty_below, ?_⟩
  rw [rsf_shape]
  simp

/-- C8 amended: `readForecastOutput` with `asTable` never returns the
empty table — `range('B7').end('down')` always yields a row at or below
row 8, so the read range always has more than one row; the result is
always a table whose column names are the row-6 values of columns B..D
and whose records are the rows from 7 through the scan result (for a
header-only sheet those records run to the worksheet bottom rather than
forming an empty table; see the counterexample). -/
theorem claim_C8_theorem (wb : Workbook) :
    read_sales_forecast wb true ≠ .emptyTable ∧
      8 ≤ end_down wb forecastSheet "B" 7 ∧
      ∃ recs, read_sales_forecast wb true = .table (rowVals wb 6) recs ∧
        recs.length = end_down wb forecastSheet "B" 7 - 6 := by
  refine ⟨?_, end_down_ge8 wb forecastSheet "B", ?_⟩
  · rw [rsf_shape]
    simp
  · refine ⟨_, rsf_shape wb, ?_⟩
    have h8 := end_down_ge8 wb forecastSheet "B"
    simp only [List.length_cons, readRows_len]
    omega

/-- Witness for C8 on the populated sheet `wbForeOut`. -/
theorem claim_C8_witness :
    read_sales_forecast wbForeOut true ≠ .emptyTable ∧
      8 ≤ end_down wbForeOut forecastSheet "B" 7 :=
  ⟨(claim_C8_theorem wbForeOut).1, (claim_C8_theorem wbForeOut).2.1⟩

/-! ## Claim C3 -/

theorem wbForeEmpty_below : ∀ j, 7 ≤ j → cellFilled wbForeEmpty inputSheet "B" j = false := by
  intro j hj
  have hn1 : (⟨inputSheet, "B", j⟩ : Addr) ≠ ⟨"Forecast input", "B", 6⟩ :=
    addr_ne_of_row (by omega)
  simp [cellFilled, getCell, wbForeEmpty, hn1]

/-- C3 counterexample: with the header in row 6 and no data rows at all
in column B, `appendInputRow` does not write at row 7: the Ctrl+Down
scan runs to the bottom row of the worksheet, so the append targets row
1048577, which is past the worksheet and raises. -/
theorem claim_C3_counterexample :
    getCell wbForeEmpty ⟨inputSheet, "B", 7⟩ = .vnone ∧
      add_forecast_input_row wbForeEmpty [] = .error .rangeError := by
  refine ⟨rfl, ?_⟩
  have hend : end_down wbForeEmpty inputSheet "B" 7 = MAX_ROW :=
    end_down_empty _ _ _ wbForeEmpty_below
  simp only [add_forecast_input_row, hend]
  rw [if_pos (show MAX_ROW + 1 > MAX_ROW from by omega)]

/-- C3 amended: `appendInputRow` follows Ctrl+Down from B7, not a
last-non-empty-row scan.  When column B holds contiguous data in rows
7..r with r at least 8 and row r+1 empty, the record lands at row r+1
(each header's value from the fields mapping in header order starting at
column B, a missing key writing the empty string) and r+1 is returned.
When no data rows exist at all the scan reaches the worksheet bottom and
the append fails at row 1048577 instead of writing at row 7. -/
theorem claim_C3_theorem (wb : Workbook) (fields : List (String × CellVal)) :
    (∀ r, 8 ≤ r → r < MAX_ROW →
      (∀ j, 7 ≤ j → j ≤ r → cellFilled wb inputSheet "B" j = true) →
      cellFilled wb inputSheet "B" (r + 1) = false →
      add_forecast_input_row wb fields =
        .ok ⟨writeRowVals wb (r + 1) inputCols ((readHeaders wb).map (fieldLookup fields)),
          true, r + 1⟩) ∧
    ((∀ j, 7 ≤ j → cellFilled wb inputSheet "B" j = false) →
      add_forecast_input_row wb fields = .error .rangeError) ∧
    (∀ h, fields.lookup h = none → fieldLookup fields (.vstr h) = .vstr "") := by
  refine ⟨?_, ?_, ?_⟩
  · intro r h8 hM hfill hnext
    have hend : end_down wb inputSheet "B" 7 = r :=
      end_down_contig _ _ _ r h8 (by omega) hfill hnext
    simp only [add_forecast_input_row, hend]
    rw [if_neg (show ¬r + 1 > MAX_ROW from by omega)]
  · intro hemp
    have hend := end_down_empty wb inputSheet "B" hemp
    simp only [add_forecast_input_row, hend]
    rw [if_pos (show MAX_ROW + 1 > MAX_ROW from by omega)]
  · intro h hl
    simp [fieldLookup, hl]

/-- Witness for C3 amended: on `wbFore` (data rows 7..10) the append
lands at row 11. -/
theorem claim_C3_witness :
    add_forecast_input_row wbFore [] =
      .ok ⟨writeRowVals wbFore 11 inputCols ((readHeaders wbFore).map (fieldLookup [])),
        true, 11⟩ :=
  (claim_C3_theorem wbFore []).1 10 (by omega) (by decide)
    (by intro j hj1 hj2; interval_cases j <;> rfl) rfl

/-! ## Claim C9 -/

/-- C9: for every prompt whose lower-cased form contains `"revenue"` but
not `"list"` and not both `"get all"` and `"ship type"`, `executeTask`
with a registered ship tool routes to `readTotalRevenue` with the fixed
literal name `"Container Ships"`; two such prompts always produce the
same routed call, so no ship name in the prompt text has any effect. -/
theorem claim_C9_theorem (p1 p2 : String) (hasSales : Bool)
    (h1a : strHas (pyLower p1) "revenue" = true)
    (h1b : strHas (pyLower p1) "list" = false)
    (h1c : (strHas (pyLower p1) "get all" && strHas (pyLower p1) "ship type") = false)
    (h2a : strHas (pyLower p2) "revenue" = true)
    (h2b : strHas (pyLower p2) "list" = false)
    (h2c : (strHas (pyLower p2) "get all" && strHas (pyLower p2) "ship type") = false) :
    execute_task true hasSales p1 = .readRevenue "Container Ships" ∧
      execute_task true hasSales p1 = execute_task true hasSales p2 := by
  have key : ∀ p, strHas (pyLower p) "revenue" = true → strHas (pyLower p) "list" = false →
      (strHas (pyLower p) "get all" && strHas (pyLower p) "ship type") = false →
      execute_task true hasSales p = .readRevenue "Container Ships" := by
    intro p ha hb hc
    simp [execute_task, ha, hb, hc]
  have r1 := key p1 h1a h1b h1c
  have r2 := key p2 h2a h2b h2c
  exact ⟨r1, by rw [r1, r2]⟩

/-- Witness for C9 on two concrete revenue prompts naming different
ships. -/
theorem claim_C9_witness :
    execute_task true true "Total revenue for VLCC" = .readRevenue "Container Ships" ∧
      execute_task true true "Total revenue for VLCC" =
        execute_task true true "revenue of Panamax please" :=
  claim_C9_theorem "Total revenue for VLCC" "revenue of Panamax please" true
    rfl rfl rfl rfl rfl rfl

end AIExcel
